import Mathlib

deriving instance DecidableEq for Except

/-!
Shallow embedding of the Sustainability Tracker backend core
(`backend/app/data_service.py` together with the request models of
`backend/app/models.py`), and proofs about the hybrid CO2e calculation
rule, the activity store operations and the aggregation queries.

Modelling conventions:
* MongoDB ObjectIds are plain strings; the collections of the
  `sustainability_tracker` database that the core touches are lists of
  documents inside a `DB` value.
* Python floats are modelled as rationals (`ℚ`), so the algebraic
  content of the calculation rule is exact.
* A method that can `raise ValueError` is modelled as a function
  returning `DB × Except Err α`: the returned `DB` is the state of the
  store after the call (error paths return the store unchanged exactly
  where the source raises before writing).
* Mongo aggregation pipelines are modelled stage by stage:
  `$match` is `List.filter`, `$lookup`+`$unwind` on a foreign key is a
  `filterMap` against the factor catalog (the catalog is expected to
  hold at most one factor per id), `$group` with `$sum` is a fold over
  the deduplicated keys, `$sort` is `List.insertionSort`, `$limit 1`
  with a Python `list[0] if list else None` is `List.head?`, and
  `$round : 2` is round-half-to-even at two decimals, which is the
  rounding mode MongoDB's `$round` uses.
-/

namespace SustainabilityTracker

/-- The Python test `"USD" in s` on the characters of `s`: does the
character list contain `'U','S','D'` consecutively?  The same test also
models the unanchored Mongo `$regex "USD"` used by the summary
pipelines, which matches a string field iff it contains "USD". -/
def strHasUSD : List Char → Bool
  | [] => false
  | 'U' :: 'S' :: 'D' :: _ => true
  | _ :: cs => strHasUSD cs

/-- Model of `"USD" in unit` from the source (substring containment). -/
def unitHasUSD (unit : String) : Bool :=
  strHasUSD unit.data

/-- A timestamp, at the resolution the pipelines look at (`$year`,
`$month`, `$week`, `$dayOfYear`, `%Y-%m-%d` formatting). -/
structure Date where
  year : Nat
  month : Nat
  day : Nat
deriving DecidableEq

/-- An `emission_factors` document. -/
structure EmissionFactor where
  id : String
  unit : String
  co2e_per_unit : ℚ
  item_name : String
  category_id : String
deriving DecidableEq

/-- An `activities` document. -/
structure Activity where
  id : String
  user_id : String
  factor_id : String
  quantity : ℚ
  monetary_amount : ℚ
  total_co2e : ℚ
  date : Date
  unit_used : String
deriving DecidableEq

/-- The collections of the `sustainability_tracker` database that the
activity store and the aggregation queries touch. -/
structure DB where
  emission_factors : List EmissionFactor
  activities : List Activity
deriving DecidableEq

/-- The `ActivityCreate` request model (`models.py`): `factor_id` and
`quantity` are required, `monetary_amount` defaults to `0`, `date`
defaults to the current time at the boundary.  Pydantic additionally
validates `quantity > 0` and `monetary_amount ≥ 0`; theorems that need
those bounds take them as hypotheses. -/
structure ActivityCreate where
  factor_id : String
  quantity : ℚ
  monetary_amount : ℚ
  date : Date
deriving DecidableEq

/-- The `ActivityUpdate` request model (`models.py`): every field is
optional and defaults to `None`; `none` models an absent field. -/
structure ActivityUpdate where
  factor_id : Option String
  quantity : Option ℚ
  monetary_amount : Option ℚ
  date : Option Date
deriving DecidableEq

/-- The only error the activity store raises is `ValueError(msg)`. -/
inductive Err where
  | valueError : String → Err
deriving DecidableEq

/-- Model of `find_one` on `emission_factors` by `_id`. -/
def findFactor (db : DB) (fid : String) : Option EmissionFactor :=
  db.emission_factors.find? (fun f => f.id == fid)

/-- Second half of `create_activity`: build the activity document and
insert it.  The stored `quantity` is `activity_data.quantity` — the
source computes a local `quantity = 1` in the economic branch but the
document construction does not use that local. -/
def insertActivityDoc (db : DB) (newId user_id : String)
    (activity_data : ActivityCreate) (factor : EmissionFactor)
    (total_co2e : ℚ) : DB × Except Err Activity :=
  let activity_doc : Activity := {
    id := newId
    user_id := user_id
    factor_id := activity_data.factor_id
    quantity := activity_data.quantity
    monetary_amount := activity_data.monetary_amount
    total_co2e := total_co2e
    date := activity_data.date
    unit_used := factor.unit }
  ({ db with activities := db.activities ++ [activity_doc] },
   Except.ok activity_doc)

/-- Model of `DatabaseService.create_activity`.  `newId` stands for the ObjectId
the insert generates. -/
def create_activity (db : DB) (newId user_id : String)
    (activity_data : ActivityCreate) : DB × Except Err Activity :=
  match findFactor db activity_data.factor_id with
  | none => (db, Except.error (Err.valueError "Emission factor not found"))
  | some factor =>
    if unitHasUSD factor.unit then
      if activity_data.monetary_amount ≤ 0 then
        (db, Except.error (Err.valueError
          "Monetary amount must be positive for economic activities"))
      else
        insertActivityDoc db newId user_id activity_data factor
          (activity_data.monetary_amount * factor.co2e_per_unit)
    else
      insertActivityDoc db newId user_id activity_data factor
        (activity_data.quantity * factor.co2e_per_unit)

/-- Merge rule for `factor_id` in `update_activity`
(`update_data.factor_id if ... and update_data.factor_id else
str(original_activity["factor_id"])`): the truthiness test makes a
supplied empty string behave like an absent field. -/
def mergeFactorId (update_data : ActivityUpdate)
    (original_activity : Activity) : String :=
  match update_data.factor_id with
  | some fid => if fid = "" then original_activity.factor_id else fid
  | none => original_activity.factor_id

/-- Merge rule for `quantity`: kept only when the supplied value
`is not None`. -/
def mergeQuantity (update_data : ActivityUpdate)
    (original_activity : Activity) : ℚ :=
  match update_data.quantity with
  | some q => q
  | none => original_activity.quantity

/-- Merge rule for `monetary_amount`: kept only when the supplied value
`is not None`, so a supplied `0` does override. -/
def mergeMonetary (update_data : ActivityUpdate)
    (original_activity : Activity) : ℚ :=
  match update_data.monetary_amount with
  | some m => m
  | none => original_activity.monetary_amount

/-- Merge rule for `date` (`if update_data.date:`): Python `datetime`
values are always truthy, so the truthiness test coincides with a
presence test. -/
def mergeDate (update_data : ActivityUpdate)
    (original_activity : Activity) : Date :=
  match update_data.date with
  | some d => d
  | none => original_activity.date

/-- Model of the `update_one` write on `_id` with a `$set` document: apply the field
updates to the first document whose `_id` matches. -/
def setFirstById (l : List Activity) (activity_id : String)
    (setFields : Activity → Activity) : List Activity :=
  match l with
  | [] => []
  | a :: rest =>
    if a.id == activity_id then setFields a :: rest
    else a :: setFirstById rest activity_id setFields

/-- Steps 6–8 of `update_activity`: build the `$set` document from the
merged fields and the recalculated `total_co2e`, write it to the first
document matching `_id`, and re-read that document.  The `none` branch
is the source's `matched_count == 0` check (`ValueError("Activity not
found")`), which cannot fire after the activity was already fetched. -/
def applyActivityUpdate (db : DB) (activity_id : String)
    (update_data : ActivityUpdate) (original_activity : Activity)
    (factor_id : String) (quantity monetary_amount : ℚ)
    (factor : EmissionFactor) (total_co2e : ℚ) :
    DB × Except Err Activity :=
  let setFields : Activity → Activity := fun a =>
    { a with
      factor_id := factor_id
      quantity := quantity
      monetary_amount := monetary_amount
      total_co2e := total_co2e
      unit_used := factor.unit
      date := mergeDate update_data original_activity }
  match db.activities.find? (fun a => a.id == activity_id) with
  | none => (db, Except.error (Err.valueError "Activity not found"))
  | some first =>
    ({ db with activities := setFirstById db.activities activity_id setFields },
     Except.ok (setFields first))

/-- Model of `DatabaseService.update_activity`. -/
def update_activity (db : DB) (user_id activity_id : String)
    (update_data : ActivityUpdate) : DB × Except Err Activity :=
  match db.activities.find?
      (fun a => a.id == activity_id && a.user_id == user_id) with
  | none => (db, Except.error (Err.valueError
      "Activity not found or user unauthorized"))
  | some original_activity =>
    let factor_id := mergeFactorId update_data original_activity
    let quantity := mergeQuantity update_data original_activity
    let monetary_amount := mergeMonetary update_data original_activity
    match findFactor db factor_id with
    | none => (db, Except.error (Err.valueError "Emission factor not found"))
    | some factor =>
      if unitHasUSD factor.unit then
        if monetary_amount ≤ 0 then
          (db, Except.error (Err.valueError
            "Monetary amount must be positive for economic activities"))
        else
          applyActivityUpdate db activity_id update_data original_activity
            factor_id quantity monetary_amount factor
            (monetary_amount * factor.co2e_per_unit)
      else
        applyActivityUpdate db activity_id update_data original_activity
          factor_id quantity monetary_amount factor
          (quantity * factor.co2e_per_unit)

/-- Model of `DatabaseService.delete_activity`: `delete_one` removes the first
document matching both `_id` and `user_id`; `deleted_count == 0`
becomes the authorization-conflating error. -/
def delete_activity (db : DB) (user_id activity_id : String) :
    DB × Except Err String :=
  match db.activities.find?
      (fun a => a.id == activity_id && a.user_id == user_id) with
  | none => (db, Except.error (Err.valueError
      "Activity not found or user unauthorized"))
  | some _ =>
    let remaining := db.activities.eraseP
      (fun a => a.id == activity_id && a.user_id == user_id)
    ({ db with activities := remaining },
     Except.ok "Activity deleted successfully")

/-- The distinct `$group` keys occurring in a list, in first-occurrence
order (Mongo leaves the group order unspecified; any enumeration of the
distinct keys is a faithful model). -/
def keysOf {α κ : Type} [DecidableEq κ] (key : α → κ) (l : List α) : List κ :=
  (l.map key).dedup

/-- The `$sum` accumulator of the group with key `k`. -/
def groupSum {α κ : Type} [DecidableEq κ] (key : α → κ) (val : α → ℚ)
    (l : List α) (k : κ) : ℚ :=
  ((l.filter (fun x => decide (key x = k))).map val).sum

/-- Model of `$group` with a single `$sum` accumulator. -/
def groupSumsBy {α κ : Type} [DecidableEq κ] (key : α → κ) (val : α → ℚ)
    (l : List α) : List (κ × ℚ) :=
  (keysOf key l).map (fun k => (k, groupSum key val l k))

/-- Model of the `$lookup` of `emission_factors` on `factor_id` followed by
`$unwind`: an activity is paired with its factor, and dropped when the
id resolves to no factor (the catalog holds at most one factor per id,
so `find?` returns the unique match). -/
def joinFactor (db : DB) (l : List Activity) :
    List (Activity × EmissionFactor) :=
  l.filterMap (fun a => (findFactor db a.factor_id).map (fun f => (a, f)))

/-- Round half to even at integer resolution. -/
def roundHalfEven (x : ℚ) : ℤ :=
  let n := x.floor
  let frac := x - (n : ℚ)
  if frac < 1/2 then n
  else if 1/2 < frac then n + 1
  else if n % 2 = 0 then n else n + 1

/-- Model of the `$round` to two places stage — MongoDB rounds half to even. -/
def round2 (x : ℚ) : ℚ :=
  (roundHalfEven (x * 100) : ℚ) / 100

/-- Descending order on a rational measure, the relation behind every
`$sort: {total_co2e_kg: -1}` stage. -/
def descByQ {α : Type} (f : α → ℚ) (x y : α) : Prop :=
  f y ≤ f x

instance {α : Type} (f : α → ℚ) : DecidableRel (descByQ f) :=
  fun x y => inferInstanceAs (Decidable (f y ≤ f x))

instance {α : Type} (f : α → ℚ) : IsTotal α (descByQ f) :=
  ⟨fun a b => le_total (f b) (f a)⟩

instance {α : Type} (f : α → ℚ) : IsTrans α (descByQ f) :=
  ⟨fun _ _ _ hab hbc => le_trans hbc hab⟩

/-- The `$match` stage of the physical (by-item) summary: this user's
activities whose `unit_used` does not match `$regex "USD"`. -/
def physicalFilter (user_id : String) (a : Activity) : Bool :=
  a.user_id == user_id && !(unitHasUSD a.unit_used)

/-- The `$match` stage of the economic (by-sector) summary: this user's
activities whose `unit_used` matches `$regex "USD"`. -/
def economicFilter (user_id : String) (a : Activity) : Bool :=
  a.user_id == user_id && unitHasUSD a.unit_used

/-- Output row of `get_physical_emissions_summary`. -/
structure ItemSummary where
  item_name : String
  total_co2e_kg : ℚ
deriving DecidableEq

/-- Output row of `get_economic_impact_analysis`. -/
structure SectorImpact where
  sector : String
  total_spending_usd : ℚ
  total_co2e_kg : ℚ
deriving DecidableEq

/-- Model of `DatabaseService.get_physical_emissions_summary`: filter to the
user's non-USD activities, join factors, group by `item_name` summing
`total_co2e`, sort descending, round to 2 decimals. -/
def get_physical_emissions_summary (db : DB) (user_id : String) :
    List ItemSummary :=
  let rows := joinFactor db (db.activities.filter (physicalFilter user_id))
  let groups := groupSumsBy (fun r => r.2.item_name)
    (fun r => r.1.total_co2e) rows
  (List.insertionSort (descByQ (fun g => g.2)) groups).map
    (fun g => { item_name := g.1, total_co2e_kg := round2 g.2 })

/-- Model of `DatabaseService.get_economic_impact_analysis`: filter to the
user's USD activities, join factors, group by `item_name` summing both
`monetary_amount` and `total_co2e`, sort descending by the emission
sum, round both to 2 decimals. -/
def get_economic_impact_analysis (db : DB) (user_id : String) :
    List SectorImpact :=
  let rows := joinFactor db (db.activities.filter (economicFilter user_id))
  let groups := (keysOf (fun r => r.2.item_name) rows).map
    (fun k => (k, groupSum (fun r => r.2.item_name) (fun r => r.1.monetary_amount) rows k,
               groupSum (fun r => r.2.item_name) (fun r => r.1.total_co2e) rows k))
  (List.insertionSort (descByQ (fun g => g.2.2)) groups).map
    (fun g => { sector := g.1, total_spending_usd := round2 g.2.1,
                total_co2e_kg := round2 g.2.2 })

/-- The groups of the physical pipeline of `get_biggest_impactors`
(identical filter/join/group stages to the physical summary). -/
def physicalImpactorGroups (db : DB) (user_id : String) : List (String × ℚ) :=
  groupSumsBy (fun r => r.2.item_name) (fun r => r.1.total_co2e)
    (joinFactor db (db.activities.filter (physicalFilter user_id)))

/-- The groups of the economic pipeline of `get_biggest_impactors`. -/
def economicImpactorGroups (db : DB) (user_id : String) : List (String × ℚ) :=
  groupSumsBy (fun r => r.2.item_name) (fun r => r.1.total_co2e)
    (joinFactor db (db.activities.filter (economicFilter user_id)))

/-- Projected top physical record (`item_name`, unrounded sum). -/
structure BiggestPhysical where
  item_name : String
  total_co2e_kg : ℚ
deriving DecidableEq

/-- Projected top economic record (`sector`, unrounded sum). -/
structure BiggestEconomic where
  sector : String
  total_co2e_kg : ℚ
deriving DecidableEq

/-- Result shape of `get_biggest_impactors`. -/
structure BiggestImpactors where
  biggest_physical : Option BiggestPhysical
  biggest_economic : Option BiggestEconomic
deriving DecidableEq

/-- Model of `DatabaseService.get_biggest_impactors`: each pipeline sorts its
groups descending and keeps only the first record; the Python
`lst[0] if lst else None` is `head?`.  No rounding is applied. -/
def get_biggest_impactors (db : DB) (user_id : String) : BiggestImpactors :=
  let phys := (List.insertionSort (descByQ (fun g => g.2))
    (physicalImpactorGroups db user_id)).head?
  let econ := (List.insertionSort (descByQ (fun g => g.2))
    (economicImpactorGroups db user_id)).head?
  { biggest_physical := phys.map
      (fun g => { item_name := g.1, total_co2e_kg := g.2 })
    biggest_economic := econ.map
      (fun g => { sector := g.1, total_co2e_kg := g.2 }) }

/-- Gregorian leap-year rule, used by the store's date-part
operators. -/
def isLeapYear (y : Nat) : Bool :=
  (y % 4 == 0 && y % 100 != 0) || y % 400 == 0

/-- Length of month `m` (1–12) of year `y`. -/
def daysInMonth (y m : Nat) : Nat :=
  match m with
  | 2 => if isLeapYear y then 29 else 28
  | 4 => 30
  | 6 => 30
  | 9 => 30
  | 11 => 30
  | _ => 31

/-- Days in the months strictly before month `m` of year `y`. -/
def daysBeforeMonth (y : Nat) : Nat → Nat
  | 0 => 0
  | 1 => 0
  | m + 2 => daysBeforeMonth y (m + 1) + daysInMonth y (m + 1)

/-- The `$dayOfYear` operator (1–366). -/
def dayOfYear (d : Date) : Nat :=
  daysBeforeMonth d.year d.month + d.day

/-- Month offsets of Sakamoto's weekday method. -/
def sakamotoT (m : Nat) : Nat :=
  match m with
  | 1 => 0 | 2 => 3 | 3 => 2 | 4 => 5 | 5 => 0 | 6 => 3
  | 7 => 5 | 8 => 1 | 9 => 4 | 10 => 6 | 11 => 2 | _ => 4

/-- Day of the week, 0 = Sunday (Sakamoto's method). -/
def dayOfWeek (d : Date) : Nat :=
  let y := if d.month < 3 then d.year - 1 else d.year
  (y + y / 4 + y / 400 + sakamotoT d.month + d.day - y / 100) % 7

/-- The `$week` operator: weeks begin on Sundays, week 1 starts at the
first Sunday of the year, earlier days are week 0. -/
def mongoWeek (d : Date) : Nat :=
  let d0 := dayOfYear d - 1
  let firstSunday := (7 - dayOfWeek { year := d.year, month := 1, day := 1 }) % 7
  if d0 < firstSunday then 0 else (d0 - firstSunday) / 7 + 1

/-- Zero-pad a numeral to two digits. -/
def pad2 (n : Nat) : String :=
  if n < 10 then "0" ++ toString n else toString n

/-- Zero-pad a numeral to four digits. -/
def pad4 (n : Nat) : String :=
  if n < 10 then "000" ++ toString n
  else if n < 100 then "00" ++ toString n
  else if n < 1000 then "0" ++ toString n
  else toString n

/-- Model of `$dateToString` with format `"%Y-%m-%d"`. -/
def formatDateYMD (d : Date) : String :=
  pad4 d.year ++ "-" ++ pad2 d.month ++ "-" ++ pad2 d.day

/-- Output row of the time-bucketed summaries. -/
structure TimeBucket where
  label : String
  emissions : ℚ
deriving DecidableEq

/-- The user's full activity list, the `$match` stage shared by the
time-bucketed summaries. -/
def userActivities (db : DB) (user_id : String) : List Activity :=
  db.activities.filter (fun a => a.user_id == user_id)

/-- Grand total of `total_co2e` over all of the user's activities,
summed directly. -/
def userTotalCO2e (db : DB) (user_id : String) : ℚ :=
  ((userActivities db user_id).map (fun a => a.total_co2e)).sum

/-- The `(year, month)` buckets of `get_monthly_summary` with their
unrounded emission sums, sorted chronologically. -/
def monthlyGroups (db : DB) (user_id : String) : List ((Nat × Nat) × ℚ) :=
  List.insertionSort
    (fun x y => x.1.1 < y.1.1 ∨ (x.1.1 = y.1.1 ∧ x.1.2 ≤ y.1.2))
    (groupSumsBy (fun a => (a.date.year, a.date.month))
      (fun a => a.total_co2e) (userActivities db user_id))

/-- Model of `DatabaseService.get_monthly_summary`: group by `$year`/`$month`,
sort chronologically, label `"YYYY-M"` via `$toString`/`$concat`,
round the sums to 2 decimals. -/
def get_monthly_summary (db : DB) (user_id : String) : List TimeBucket :=
  (monthlyGroups db user_id).map
    (fun g => { label := toString g.1.1 ++ "-" ++ toString g.1.2,
                emissions := round2 g.2 })

/-- The `(year, week)` buckets of `get_weekly_summary` with their unrounded
emission sums, sorted chronologically. -/
def weeklyGroups (db : DB) (user_id : String) : List ((Nat × Nat) × ℚ) :=
  List.insertionSort
    (fun x y => x.1.1 < y.1.1 ∨ (x.1.1 = y.1.1 ∧ x.1.2 ≤ y.1.2))
    (groupSumsBy (fun a => (a.date.year, mongoWeek a.date))
      (fun a => a.total_co2e) (userActivities db user_id))

/-- Model of `DatabaseService.get_weekly_summary`: group by `$year`/`$week`,
sort chronologically, label `"Week W, YYYY"`, round to 2 decimals. -/
def get_weekly_summary (db : DB) (user_id : String) : List TimeBucket :=
  (weeklyGroups db user_id).map
    (fun g => { label := "Week " ++ toString g.1.2 ++ ", " ++ toString g.1.1,
                emissions := round2 g.2 })

/-- Chronological order on dates, as the store's `$sort: {date: 1}`
compares timestamps. -/
def dateLe (d e : Date) : Prop :=
  d.year < e.year ∨ (d.year = e.year ∧
    (d.month < e.month ∨ (d.month = e.month ∧ d.day ≤ e.day)))

instance : DecidableRel dateLe :=
  fun d e => by unfold dateLe; infer_instance

/-- The `(year, dayOfYear)` buckets of `get_daily_summary` with the
`$first` date of each bucket and the unrounded emission sum, sorted by
that date. -/
def dailyGroups (db : DB) (user_id : String) :
    List ((Nat × Nat) × Date × ℚ) :=
  let acts := userActivities db user_id
  let key : Activity → Nat × Nat := fun a => (a.date.year, dayOfYear a.date)
  List.insertionSort (fun x y => dateLe x.2.1 y.2.1)
    ((keysOf key acts).map (fun k =>
      (k,
       (((acts.filter (fun a => decide (key a = k))).head?).map
          (fun a => a.date)).getD { year := 0, month := 1, day := 1 },
       groupSum key (fun a => a.total_co2e) acts k)))

/-- Model of `DatabaseService.get_daily_summary`: group by `$year`/`$dayOfYear`
keeping the `$first` date, sort by that date, label with
`$dateToString "%Y-%m-%d"`, round to 2 decimals.  (The `getD` default
inside `dailyGroups` is never reached: every key of `keysOf` has a
nonempty fiber.) -/
def get_daily_summary (db : DB) (user_id : String) : List TimeBucket :=
  (dailyGroups db user_id).map
    (fun g => { label := formatDateYMD g.2.1, emissions := round2 g.2.2 })

/-! ### Supporting lemmas -/

/-- Splitting a sum of mapped values along a Boolean filter. -/
lemma sum_map_filter_add {α : Type} (l : List α) (p : α → Bool) (val : α → ℚ) :
    ((l.filter p).map val).sum + ((l.filter (fun x => !(p x))).map val).sum
      = (l.map val).sum := by
  induction l with
  | nil => simp
  | cons a t ih =>
    by_cases h : p a = true
    · simp only [List.filter_cons, h, Bool.not_true, List.map_cons, List.sum_cons,
        if_true, if_false, Bool.false_eq_true]
      rw [add_assoc, ih]
    · have h' : p a = false := by
        cases hpa : p a
        · rfl
        · exact absurd hpa h
      simp only [List.filter_cons, h', Bool.not_false, List.map_cons, List.sum_cons,
        if_true, if_false, Bool.false_eq_true]
      rw [← ih]; ring

/-- Summing the group accumulators over any duplicate-free key list that
covers a data list recovers the direct sum of the data. -/
lemma sum_groupSum {α κ : Type} [DecidableEq κ] (key : α → κ) (val : α → ℚ) :
    ∀ (ks : List κ) (l : List α), ks.Nodup → (∀ x ∈ l, key x ∈ ks) →
      (ks.map (fun k => groupSum key val l k)).sum = (l.map val).sum := by
  intro ks
  induction ks with
  | nil =>
    intro l _ hcov
    cases l with
    | nil => simp
    | cons x t => exact absurd (hcov x (List.mem_cons_self x t)) (List.not_mem_nil _)
  | cons k ks ih =>
    intro l hnd hcov
    have hk_not : k ∉ ks := (List.nodup_cons.mp hnd).1
    have hnd' : ks.Nodup := (List.nodup_cons.mp hnd).2
    set l₂ := l.filter (fun x => !(decide (key x = k))) with hl₂
    have hsame : ∀ k' ∈ ks, groupSum key val l k' = groupSum key val l₂ k' := by
      intro k' hk'
      have hkk : k' ≠ k := fun h => hk_not (h ▸ hk')
      unfold groupSum
      rw [hl₂, List.filter_filter]
      refine congrArg List.sum (congrArg (List.map val) ?_)
      apply List.filter_congr
      intro x _
      by_cases hx : key x = k'
      · simp [hx, hkk]
      · simp [hx]
    have hmap : (ks.map (fun k' => groupSum key val l k')).sum
        = (ks.map (fun k' => groupSum key val l₂ k')).sum := by
      rw [List.map_congr_left hsame]
    have hcov₂ : ∀ x ∈ l₂, key x ∈ ks := by
      intro x hx
      have hx' := List.mem_filter.mp hx
      have hne : key x ≠ k := by
        intro hkx
        rw [hl₂, List.mem_filter] at hx
        simp [hkx] at hx
      rcases List.mem_cons.mp (hcov x hx'.1) with hEq | hMem
      · exact absurd hEq hne
      · exact hMem
    have ih₂ := ih l₂ hnd' hcov₂
    simp only [List.map_cons, List.sum_cons]
    rw [hmap, ih₂]
    have := sum_map_filter_add l (fun x => decide (key x = k)) val
    unfold groupSum
    rw [← this, hl₂]

/-- Conservation of mass across a single-`$sum` `$group` stage. -/
lemma sum_groupSumsBy {α κ : Type} [DecidableEq κ] (key : α → κ) (val : α → ℚ)
    (l : List α) :
    ((groupSumsBy key val l).map (fun g => g.2)).sum = (l.map val).sum := by
  unfold groupSumsBy
  rw [List.map_map]
  have : ((keysOf key l).map ((fun g => g.2) ∘ fun k => (k, groupSum key val l k)))
      = (keysOf key l).map (fun k => groupSum key val l k) := rfl
  rw [this]
  apply sum_groupSum
  · exact List.nodup_dedup _
  · intro x hx
    exact List.mem_dedup.mpr (List.mem_map_of_mem key hx)

/-- A `$sort` stage preserves sums of mapped values. -/
lemma sum_map_insertionSort {α : Type} (r : α → α → Prop) [DecidableRel r]
    (f : α → ℚ) (l : List α) :
    ((List.insertionSort r l).map f).sum = (l.map f).sum :=
  ((List.perm_insertionSort r l).map f).sum_eq

/-- Lemma: `find?` returns exactly the known member when the searched key is
unique in the list (ids are generated ObjectIds, hence distinct). -/
lemma find?_eq_some_of_unique_key :
    ∀ {l : List Activity}, (l.map (fun a => a.id)).Nodup →
      ∀ {A : Activity}, A ∈ l → ∀ (p : Activity → Bool), p A = true →
      (∀ x, p x = true → x.id = A.id) → l.find? p = some A := by
  intro l
  induction l with
  | nil => intro _ A hA; exact absurd hA (List.not_mem_nil _)
  | cons b t ih =>
    intro hnd A hA p hpA hp
    rw [List.map_cons] at hnd
    have hnd' := List.nodup_cons.mp hnd
    rcases List.mem_cons.mp hA with hab | hat
    · subst hab; exact List.find?_cons_of_pos t hpA
    · have hpb : ¬ p b = true := by
        intro hb
        have hmem : A.id ∈ t.map (fun a => a.id) := List.mem_map_of_mem _ hat
        have hmem' : b.id ∈ t.map (fun a => a.id) := by
          rw [hp b hb]; exact hmem
        exact hnd'.1 hmem'
      rw [List.find?_cons_of_neg t hpb]
      exact ih hnd'.2 hat p hpA hp

/-- The head of a descending `$sort` is a member with maximal measure. -/
lemma head?_insertionSort_desc_max {α : Type} (f : α → ℚ) (l : List α) {h : α}
    (hh : (List.insertionSort (descByQ f) l).head? = some h) :
    h ∈ l ∧ ∀ g ∈ l, f g ≤ f h := by
  have hsorted := List.sorted_insertionSort (descByQ f) l
  have hperm := List.perm_insertionSort (descByQ f) l
  cases hsort : List.insertionSort (descByQ f) l with
  | nil => rw [hsort] at hh; exact absurd hh (by simp)
  | cons x t =>
    rw [hsort] at hh
    have hx : x = h := by simpa using hh
    subst hx
    rw [hsort] at hsorted hperm
    constructor
    · exact hperm.mem_iff.mp (List.mem_cons_self x t)
    · intro g hg
      have hg' := hperm.mem_iff.mpr hg
      rcases List.mem_cons.mp hg' with hgx | hgt
      · subst hgx; exact le_refl _
      · exact List.rel_of_sorted_cons hsorted g hgt

/-! ### Concrete data used by witnesses and counterexamples

These mirror the worked example of the repository: a physical "Beef"
factor (27 kg CO2e per kg) and an economic "Electricity" factor
(0.5 kg CO2e per USD). -/

def fBeef : EmissionFactor :=
  { id := "f1", unit := "kg", co2e_per_unit := 27,
    item_name := "Beef", category_id := "c1" }

def fElec : EmissionFactor :=
  { id := "f2", unit := "USD", co2e_per_unit := 1/2,
    item_name := "Electricity", category_id := "c2" }

def dJan : Date := { year := 2025, month := 1, day := 10 }

def dNov : Date := { year := 2025, month := 11, day := 24 }

def aBeef : Activity :=
  { id := "a1", user_id := "u1", factor_id := "f1", quantity := 10,
    monetary_amount := 0, total_co2e := 270, date := dJan,
    unit_used := "kg" }

def aElec : Activity :=
  { id := "a2", user_id := "u1", factor_id := "f2", quantity := 1,
    monetary_amount := 100, total_co2e := 50, date := dNov,
    unit_used := "USD" }

def dbA : DB := { emission_factors := [fBeef, fElec], activities := [aBeef, aElec] }

/-! ### Claims -/

/-- C1: For every emission factor F and activity input: if F's unit
contains "USD" (economic factor), the computed `total_co2e` equals
`monetary_amount * F.co2e_per_unit` and the computation fails with a
validation error whenever `monetary_amount ≤ 0`; if F's unit does not
contain "USD" (physical factor), `total_co2e` equals
`quantity * F.co2e_per_unit` and `monetary_amount` is stored as
provided but not used in the formula.  The hybrid rule is applied
identically by `create_activity` (on the caller-supplied values) and
`update_activity` (on the merged values). -/
theorem claim_C1_hybrid_rule :
    (∀ (db : DB) (newId user_id : String) (activity_data : ActivityCreate)
       (factor : EmissionFactor),
       findFactor db activity_data.factor_id = some factor →
       ((unitHasUSD factor.unit = true →
          (activity_data.monetary_amount ≤ 0 →
            (create_activity db newId user_id activity_data).2
              = Except.error (Err.valueError
                  "Monetary amount must be positive for economic activities")) ∧
          (0 < activity_data.monetary_amount →
            ∃ doc, (create_activity db newId user_id activity_data).2 = Except.ok doc ∧
              doc.total_co2e = activity_data.monetary_amount * factor.co2e_per_unit)) ∧
        (unitHasUSD factor.unit = false →
          ∃ doc, (create_activity db newId user_id activity_data).2 = Except.ok doc ∧
            doc.total_co2e = activity_data.quantity * factor.co2e_per_unit ∧
            doc.monetary_amount = activity_data.monetary_amount))) ∧
    (∀ (db : DB) (user_id activity_id : String) (update_data : ActivityUpdate)
       (original_activity : Activity) (factor : EmissionFactor),
       db.activities.find? (fun a => a.id == activity_id && a.user_id == user_id)
         = some original_activity →
       findFactor db (mergeFactorId update_data original_activity) = some factor →
       ((unitHasUSD factor.unit = true →
          (mergeMonetary update_data original_activity ≤ 0 →
            (update_activity db user_id activity_id update_data).2
              = Except.error (Err.valueError
                  "Monetary amount must be positive for economic activities")) ∧
          (0 < mergeMonetary update_data original_activity →
            ∃ doc, (update_activity db user_id activity_id update_data).2 = Except.ok doc ∧
              doc.total_co2e
                = mergeMonetary update_data original_activity * factor.co2e_per_unit)) ∧
        (unitHasUSD factor.unit = false →
          ∃ doc, (update_activity db user_id activity_id update_data).2 = Except.ok doc ∧
            doc.total_co2e
              = mergeQuantity update_data original_activity * factor.co2e_per_unit ∧
            doc.monetary_amount = mergeMonetary update_data original_activity))) := by
  constructor
  · intro db newId user_id activity_data factor hf
    constructor
    · intro husd
      constructor
      · intro hm
        simp only [create_activity, hf]
        rw [husd]
        simp [hm]
      · intro hm
        have hnm : ¬ activity_data.monetary_amount ≤ 0 := not_le.mpr hm
        simp only [create_activity, hf]
        rw [husd]
        simp only [if_true]
        rw [if_neg hnm]
        exact ⟨_, rfl, rfl⟩
    · intro husd
      simp only [create_activity, hf]
      rw [husd]
      simp only [Bool.false_eq_true, if_false]
      exact ⟨_, rfl, rfl, rfl⟩
  · intro db user_id activity_id update_data original_activity factor hfind hf
    have hex : ∃ x, x ∈ db.activities ∧ (x.id == activity_id) = true := by
      refine ⟨original_activity, List.mem_of_find?_eq_some hfind, ?_⟩
      have hands := List.find?_some hfind
      simp only [Bool.and_eq_true] at hands
      exact hands.1
    have hex' : (db.activities.find? (fun a => a.id == activity_id)).isSome :=
      List.find?_isSome.mpr hex
    obtain ⟨first, hfirst⟩ := Option.isSome_iff_exists.mp hex'
    constructor
    · intro husd
      constructor
      · intro hm
        simp only [update_activity, hfind, hf]
        rw [husd]
        simp [hm]
      · intro hm
        have hnm : ¬ mergeMonetary update_data original_activity ≤ 0 := not_le.mpr hm
        simp only [update_activity, hfind, hf]
        rw [husd]
        simp only [if_true]
        rw [if_neg hnm]
        simp only [applyActivityUpdate, hfirst]
        exact ⟨_, rfl, rfl⟩
    · intro husd
      simp only [update_activity, hfind, hf]
      rw [husd]
      simp only [Bool.false_eq_true, if_false]
      simp only [applyActivityUpdate, hfirst]
      exact ⟨_, rfl, rfl, rfl⟩

/-- Partial update supplying only a new quantity of 5. -/
def updQ5 : ActivityUpdate :=
  { factor_id := none, quantity := some 5, monetary_amount := none, date := none }

/-- Create request for the economic factor with a zero monetary
amount. -/
def cdZero : ActivityCreate :=
  { factor_id := "f2", quantity := 5, monetary_amount := 0, date := dJan }

unseal Rat.mul Rat.inv Rat.add Rat.sub in
/-- Witness for C1 at concrete inputs: the economic "Electricity"
factor rejects a zero monetary amount at create time, and the merged
update of the "Beef" activity recomputes `5 * 27`. -/
theorem claim_C1_hybrid_rule_witness :
    (findFactor dbA "f2" = some fElec ∧ unitHasUSD fElec.unit = true ∧
      cdZero.monetary_amount ≤ 0 ∧
      (create_activity dbA "a9" "u1" cdZero).2
        = Except.error (Err.valueError
            "Monetary amount must be positive for economic activities")) ∧
    (dbA.activities.find? (fun a => a.id == "a1" && a.user_id == "u1") = some aBeef ∧
      ∃ doc,
        (update_activity dbA "u1" "a1" updQ5).2 = Except.ok doc ∧
        doc.total_co2e = mergeQuantity updQ5 aBeef * fBeef.co2e_per_unit ∧
        doc.monetary_amount = mergeMonetary updQ5 aBeef) :=
  ⟨⟨by decide, by decide, by decide,
    ((claim_C1_hybrid_rule.1 dbA "a9" "u1" cdZero fElec (by decide)).1
        (by decide)).1 (by decide)⟩,
   ⟨by decide,
    (claim_C1_hybrid_rule.2 dbA "u1" "a1" updQ5 aBeef fBeef
        (by decide) (by decide)).2 (by decide)⟩⟩

/-- Create request for the economic factor with quantity 5 and a
positive monetary amount. -/
def cdEcon5 : ActivityCreate :=
  { factor_id := "f2", quantity := 5, monetary_amount := 100, date := dJan }

unseal Rat.mul Rat.inv Rat.add Rat.sub in
/-- C2: the claim says the persisted quantity equals 1 for economic
factors; the code computes a local `quantity = 1` but then persists the
caller-supplied quantity.  At quantity 5 the stored document keeps 5. -/
theorem claim_C2_economic_quantity_not_one :
    (create_activity dbA "a9" "u1" cdEcon5).2
      = Except.ok { id := "a9", user_id := "u1", factor_id := "f2",
                    quantity := 5, monetary_amount := 100, total_co2e := 50,
                    date := dJan, unit_used := "USD" } ∧
    cdEcon5.quantity = 5 ∧ unitHasUSD fElec.unit = true ∧ (5 : ℚ) ≠ 1 := by
  refine ⟨by decide, by decide, by decide, by decide⟩

/-- Partial update supplying `factor_id` as the empty string. -/
def updEmptyFid : ActivityUpdate :=
  { factor_id := some "", quantity := none, monetary_amount := none, date := none }

unseal Rat.mul Rat.inv Rat.add Rat.sub in
/-- C3 counterexample: a successful update whose payload carries a
present `factor_id` (the empty string) does not override the stored
value — the call succeeds and the stored `factor_id` stays `"f1"`. -/
theorem claim_C3_counterexample_empty_factor_id :
    updEmptyFid.factor_id = some "" ∧
    update_activity dbA "u1" "a1" updEmptyFid = (dbA, Except.ok aBeef) ∧
    aBeef.factor_id ≠ "" := by
  refine ⟨by decide, by decide, by decide⟩

/-- Success shape of the write-and-reread tail of `update_activity`. -/
lemma applyActivityUpdate_ok {db : DB} {activity_id : String}
    {update_data : ActivityUpdate} {original_activity : Activity}
    {factor_id : String} {quantity monetary_amount : ℚ}
    {factor : EmissionFactor} {total_co2e : ℚ} {db' : DB} {act : Activity}
    (h : applyActivityUpdate db activity_id update_data original_activity
      factor_id quantity monetary_amount factor total_co2e = (db', Except.ok act)) :
    act.factor_id = factor_id ∧ act.quantity = quantity ∧
    act.monetary_amount = monetary_amount ∧ act.total_co2e = total_co2e ∧
    act.unit_used = factor.unit ∧
    act.date = mergeDate update_data original_activity := by
  unfold applyActivityUpdate at h
  cases hfirst : db.activities.find? (fun a => a.id == activity_id) with
  | none => rw [hfirst] at h; simp at h
  | some first =>
    rw [hfirst] at h
    have hact : act = { first with
        factor_id := factor_id
        quantity := quantity
        monetary_amount := monetary_amount
        total_co2e := total_co2e
        unit_used := factor.unit
        date := mergeDate update_data original_activity } := by
      have := congrArg Prod.snd h
      simpa using this.symm
    subst hact
    exact ⟨rfl, rfl, rfl, rfl, rfl, rfl⟩

/-- C3 (amended): in every successful `update_activity` call, a
supplied `quantity`, `monetary_amount` or `date` overrides the stored
value and a supplied `factor_id` overrides it when nonempty (a supplied
empty string is treated like an absent field); absent fields keep the
original values; and the stored `total_co2e` is always recomputed by
the hybrid rule from the merged factor, quantity and monetary amount
(the caller cannot supply it: `ActivityUpdate` carries no such
field). -/
theorem claim_C3_amended_merge :
    ∀ (db : DB) (user_id activity_id : String) (update_data : ActivityUpdate)
      (original_activity : Activity) (db' : DB) (act : Activity),
      db.activities.find? (fun a => a.id == activity_id && a.user_id == user_id)
        = some original_activity →
      update_activity db user_id activity_id update_data = (db', Except.ok act) →
      ((∀ fid, update_data.factor_id = some fid → fid ≠ "" → act.factor_id = fid) ∧
       (update_data.factor_id = none ∨ update_data.factor_id = some "" →
         act.factor_id = original_activity.factor_id) ∧
       (∀ q, update_data.quantity = some q → act.quantity = q) ∧
       (update_data.quantity = none → act.quantity = original_activity.quantity) ∧
       (∀ m, update_data.monetary_amount = some m → act.monetary_amount = m) ∧
       (update_data.monetary_amount = none →
         act.monetary_amount = original_activity.monetary_amount) ∧
       (∀ d, update_data.date = some d → act.date = d) ∧
       (update_data.date = none → act.date = original_activity.date) ∧
       (∃ factor, findFactor db act.factor_id = some factor ∧
          act.unit_used = factor.unit ∧
          act.total_co2e = (if unitHasUSD factor.unit then act.monetary_amount
                            else act.quantity) * factor.co2e_per_unit)) := by
  intro db user_id activity_id update_data original_activity db' act hfind hrun
  unfold update_activity at hrun
  rw [hfind] at hrun
  dsimp only at hrun
  cases hff : findFactor db (mergeFactorId update_data original_activity) with
  | none => rw [hff] at hrun; simp at hrun
  | some factor =>
    rw [hff] at hrun
    dsimp only at hrun
    have hfields : act.factor_id = mergeFactorId update_data original_activity ∧
        act.quantity = mergeQuantity update_data original_activity ∧
        act.monetary_amount = mergeMonetary update_data original_activity ∧
        act.unit_used = factor.unit ∧
        act.date = mergeDate update_data original_activity ∧
        act.total_co2e = (if unitHasUSD factor.unit then act.monetary_amount
                          else act.quantity) * factor.co2e_per_unit := by
      by_cases husd : unitHasUSD factor.unit = true
      · rw [if_pos husd] at hrun
        by_cases hm : mergeMonetary update_data original_activity ≤ 0
        · rw [if_pos hm] at hrun; simp at hrun
        · rw [if_neg hm] at hrun
          obtain ⟨h1, h2, h3, h4, h5, h6⟩ := applyActivityUpdate_ok hrun
          exact ⟨h1, h2, h3, h5, h6, by rw [if_pos husd, h4, h3]⟩
      · rw [if_neg husd] at hrun
        obtain ⟨h1, h2, h3, h4, h5, h6⟩ := applyActivityUpdate_ok hrun
        exact ⟨h1, h2, h3, h5, h6, by rw [if_neg husd, h4, h2]⟩
    obtain ⟨hfid, hq, hm, hu, hd, ht⟩ := hfields
    refine ⟨?_, ?_, ?_, ?_, ?_, ?_, ?_, ?_, ?_⟩
    · intro fid hsome hne
      rw [hfid]; unfold mergeFactorId; rw [hsome]; exact if_neg hne
    · intro habs
      rw [hfid]; unfold mergeFactorId
      rcases habs with h | h
      · rw [h]
      · rw [h]; simp
    · intro q hsome; rw [hq]; unfold mergeQuantity; rw [hsome]
    · intro habs; rw [hq]; unfold mergeQuantity; rw [habs]
    · intro m hsome; rw [hm]; unfold mergeMonetary; rw [hsome]
    · intro habs; rw [hm]; unfold mergeMonetary; rw [habs]
    · intro d hsome; rw [hd]; unfold mergeDate; rw [hsome]
    · intro habs; rw [hd]; unfold mergeDate; rw [habs]
    · exact ⟨factor, hfid ▸ hff, hu, ht⟩

/-- Partial update moving the electricity activity onto the beef
factor with a new quantity, zero monetary amount and a new date. -/
def updSwap : ActivityUpdate :=
  { factor_id := some "f1", quantity := some 2, monetary_amount := some 0,
    date := some dJan }

/-- Expected stored document after `updSwap` is applied to `aElec`. -/
def actSwap : Activity :=
  { id := "a2", user_id := "u1", factor_id := "f1", quantity := 2,
    monetary_amount := 0, total_co2e := 54, date := dJan, unit_used := "kg" }

/-- Expected store contents after `updSwap` is applied. -/
def dbSwap : DB := { emission_factors := [fBeef, fElec], activities := [aBeef, actSwap] }

unseal Rat.mul Rat.inv Rat.add Rat.sub in
/-- Witness for the amended C3 at a concrete successful update that
supplies every field. -/
theorem claim_C3_amended_merge_witness :
    dbA.activities.find? (fun a => a.id == "a2" && a.user_id == "u1") = some aElec ∧
    update_activity dbA "u1" "a2" updSwap = (dbSwap, Except.ok actSwap) ∧
    actSwap.factor_id = "f1" ∧ actSwap.quantity = 2 ∧
    actSwap.monetary_amount = 0 ∧ actSwap.date = dJan :=
  ⟨by decide, by decide,
   (claim_C3_amended_merge dbA "u1" "a2" updSwap aElec dbSwap actSwap
      (by decide) (by decide)).1 "f1" rfl (by decide),
   (claim_C3_amended_merge dbA "u1" "a2" updSwap aElec dbSwap actSwap
      (by decide) (by decide)).2.2.1 2 rfl,
   (claim_C3_amended_merge dbA "u1" "a2" updSwap aElec dbSwap actSwap
      (by decide) (by decide)).2.2.2.2.1 0 rfl,
   (claim_C3_amended_merge dbA "u1" "a2" updSwap aElec dbSwap actSwap
      (by decide) (by decide)).2.2.2.2.2.2.1 dJan rfl⟩

/-- Generated ObjectIds are distinct, so stored activity ids are
pairwise different. -/
def NodupIds (db : DB) : Prop :=
  (db.activities.map (fun a => a.id)).Nodup

instance (db : DB) : Decidable (NodupIds db) := by
  unfold NodupIds; infer_instance

/-- C4: for an activity owned by U, both `update_activity` and
`delete_activity` invoked by a different user V with the correct
`activity_id` fail with exactly the same `ValueError` (same message) as
with an id matching no stored activity. -/
theorem claim_C4_wrong_user_indistinguishable :
    ∀ (db : DB), NodupIds db →
    ∀ (A : Activity), A ∈ db.activities →
    ∀ (V : String), V ≠ A.user_id →
    ∀ (missing : String), (∀ b ∈ db.activities, b.id ≠ missing) →
    ∀ (update_data : ActivityUpdate),
      (update_activity db V A.id update_data).2
        = Except.error (Err.valueError "Activity not found or user unauthorized") ∧
      (update_activity db V missing update_data).2
        = Except.error (Err.valueError "Activity not found or user unauthorized") ∧
      (delete_activity db V A.id).2
        = Except.error (Err.valueError "Activity not found or user unauthorized") ∧
      (delete_activity db V missing).2
        = Except.error (Err.valueError "Activity not found or user unauthorized") := by
  intro db hnd A hA V hV missing hmiss update_data
  have hnoneA : db.activities.find? (fun a => a.id == A.id && a.user_id == V) = none := by
    rw [List.find?_eq_none]
    intro x hx hpx
    simp only [Bool.and_eq_true, beq_iff_eq] at hpx
    have hxA : x = A := List.inj_on_of_nodup_map hnd hx hA hpx.1
    exact hV (by rw [← hpx.2, hxA])
  have hnoneM : db.activities.find?
      (fun a => a.id == missing && a.user_id == V) = none := by
    rw [List.find?_eq_none]
    intro x hx hpx
    simp only [Bool.and_eq_true, beq_iff_eq] at hpx
    exact hmiss x hx hpx.1
  refine ⟨?_, ?_, ?_, ?_⟩
  · unfold update_activity; rw [hnoneA]
  · unfold update_activity; rw [hnoneM]
  · unfold delete_activity; rw [hnoneA]
  · unfold delete_activity; rw [hnoneM]

unseal Rat.mul Rat.inv Rat.add Rat.sub in
/-- Witness for C4: user "u2" attacking the "Beef" activity of "u1"
gets the same error as probing the unused id "zz". -/
theorem claim_C4_wrong_user_indistinguishable_witness :
    NodupIds dbA ∧ aBeef ∈ dbA.activities ∧ "u2" ≠ aBeef.user_id ∧
    (update_activity dbA "u2" "a1" updQ5).2
      = Except.error (Err.valueError "Activity not found or user unauthorized") ∧
    (delete_activity dbA "u2" "zz").2
      = Except.error (Err.valueError "Activity not found or user unauthorized") :=
  ⟨by decide, by decide, by decide,
   (claim_C4_wrong_user_indistinguishable dbA (by decide) aBeef (by decide)
      "u2" (by decide) "zz" (by decide) updQ5).1,
   (claim_C4_wrong_user_indistinguishable dbA (by decide) aBeef (by decide)
      "u2" (by decide) "zz" (by decide) updQ5).2.2.2⟩

/-- C5: for every activity of the user, the `$match` predicates of the
by-item (physical) and by-sector (economic) summaries are exact
complements on the "USD" marker of `unit_used`: the activity feeds
exactly one of the two pipelines, whatever its `unit_used` contains. -/
theorem claim_C5_filters_partition :
    ∀ (db : DB) (user_id : String) (a : Activity), a ∈ db.activities →
      a.user_id = user_id →
      (physicalFilter user_id a = !(economicFilter user_id a)) ∧
      ((a ∈ db.activities.filter (physicalFilter user_id) ∧
          a ∉ db.activities.filter (economicFilter user_id)) ∨
       (a ∈ db.activities.filter (economicFilter user_id) ∧
          a ∉ db.activities.filter (physicalFilter user_id))) := by
  intro db user_id a ha huser
  cases husd : unitHasUSD a.unit_used with
  | false =>
    constructor
    · simp [physicalFilter, economicFilter, husd, huser]
    · left
      constructor
      · rw [List.mem_filter]
        exact ⟨ha, by simp [physicalFilter, husd, huser]⟩
      · rw [List.mem_filter]
        intro hc
        simp [economicFilter, husd, huser] at hc
  | true =>
    constructor
    · simp [physicalFilter, economicFilter, husd, huser]
    · right
      constructor
      · rw [List.mem_filter]
        exact ⟨ha, by simp [economicFilter, husd, huser]⟩
      · rw [List.mem_filter]
        intro hc
        simp [physicalFilter, husd, huser] at hc

unseal Rat.mul Rat.inv Rat.add Rat.sub in
/-- Witness for C5: the physical "Beef" activity feeds exactly the
physical pipeline. -/
theorem claim_C5_filters_partition_witness :
    aBeef ∈ dbA.activities ∧ aBeef.user_id = "u1" ∧
    physicalFilter "u1" aBeef = !(economicFilter "u1" aBeef) :=
  ⟨by decide, by decide,
   (claim_C5_filters_partition dbA "u1" aBeef (by decide) (by decide)).1⟩

/-- The all-absent partial update. -/
def updNone : ActivityUpdate :=
  { factor_id := none, quantity := none, monetary_amount := none, date := none }

/-- Every failing path of `update_activity` returns the store
unchanged: authorization, the factor lookup and the monetary validation
all happen before `update_one` runs. -/
lemma update_activity_error_fst :
    ∀ (db : DB) (user_id activity_id : String) (update_data : ActivityUpdate)
      (e : Err),
      (update_activity db user_id activity_id update_data).2 = Except.error e →
      (update_activity db user_id activity_id update_data).1 = db := by
  intro db user_id activity_id update_data e
  unfold update_activity
  cases hfind : db.activities.find?
      (fun a => a.id == activity_id && a.user_id == user_id) with
  | none => intro _; rfl
  | some orig =>
    dsimp only
    cases hff : findFactor db (mergeFactorId update_data orig) with
    | none => intro _; rfl
    | some factor =>
      dsimp only
      by_cases husd : unitHasUSD factor.unit = true
      · rw [if_pos husd]
        by_cases hm : mergeMonetary update_data orig ≤ 0
        · rw [if_pos hm]; intro _; rfl
        · rw [if_neg hm]
          unfold applyActivityUpdate
          cases hfirst : db.activities.find? (fun a => a.id == activity_id) with
          | none => intro _; rfl
          | some first => dsimp only; intro hc; simp at hc
      · rw [if_neg husd]
        unfold applyActivityUpdate
        cases hfirst : db.activities.find? (fun a => a.id == activity_id) with
        | none => intro _; rfl
        | some first => dsimp only; intro hc; simp at hc

/-- C6: updating an activity with the all-absent payload keeps its
`total_co2e`, provided the referenced factor still exists.  The stored
total is assumed consistent with the hybrid rule — the invariant every
document written by `create_activity`/`update_activity` satisfies (C1);
if the recomputation instead fails (economic factor with a non-positive
stored monetary amount) the store is untouched, so the total is again
unchanged. -/
theorem claim_C6_empty_update_keeps_total :
    ∀ (db : DB) (A : Activity) (factor : EmissionFactor),
      NodupIds db → A ∈ db.activities →
      findFactor db A.factor_id = some factor →
      A.total_co2e = (if unitHasUSD factor.unit then A.monetary_amount
                      else A.quantity) * factor.co2e_per_unit →
      (∀ db' act, update_activity db A.user_id A.id updNone = (db', Except.ok act) →
        act.total_co2e = A.total_co2e) ∧
      (∀ e, (update_activity db A.user_id A.id updNone).2 = Except.error e →
        (update_activity db A.user_id A.id updNone).1 = db) := by
  intro db A factor hnd hA hff hcons
  have hfind : db.activities.find?
      (fun a => a.id == A.id && a.user_id == A.user_id) = some A := by
    apply find?_eq_some_of_unique_key hnd hA
    · simp
    · intro x hx
      simp only [Bool.and_eq_true, beq_iff_eq] at hx
      exact hx.1
  have hmf : mergeFactorId updNone A = A.factor_id := rfl
  have hmq : mergeQuantity updNone A = A.quantity := rfl
  have hmm : mergeMonetary updNone A = A.monetary_amount := rfl
  constructor
  · intro db' act hrun
    unfold update_activity at hrun
    rw [hfind] at hrun
    dsimp only at hrun
    rw [hmf, hmq, hmm, hff] at hrun
    dsimp only at hrun
    by_cases husd : unitHasUSD factor.unit = true
    · rw [if_pos husd] at hrun
      by_cases hm : A.monetary_amount ≤ 0
      · rw [if_pos hm] at hrun; simp at hrun
      · rw [if_neg hm] at hrun
        obtain ⟨_, _, _, h4, _, _⟩ := applyActivityUpdate_ok hrun
        rw [h4, hcons, if_pos husd]
    · rw [if_neg husd] at hrun
      obtain ⟨_, _, _, h4, _, _⟩ := applyActivityUpdate_ok hrun
      rw [h4, hcons, if_neg husd]
  · intro e herr
    exact update_activity_error_fst db A.user_id A.id updNone e herr

unseal Rat.mul Rat.inv Rat.add Rat.sub in
/-- Witness for C6: the empty update of the consistent "Beef" activity
returns the store unchanged and the same total. -/
theorem claim_C6_empty_update_keeps_total_witness :
    NodupIds dbA ∧ aBeef ∈ dbA.activities ∧
    findFactor dbA aBeef.factor_id = some fBeef ∧
    aBeef.total_co2e = (if unitHasUSD fBeef.unit then aBeef.monetary_amount
                        else aBeef.quantity) * fBeef.co2e_per_unit ∧
    update_activity dbA aBeef.user_id aBeef.id updNone = (dbA, Except.ok aBeef) ∧
    aBeef.total_co2e = aBeef.total_co2e :=
  ⟨by decide, by decide, by decide, by decide, by decide,
   (claim_C6_empty_update_keeps_total dbA aBeef fBeef (by decide) (by decide)
      (by decide) (by decide)).1 dbA aBeef (by decide)⟩

/-- C9: whenever `update_activity` fails — authorization/not-found,
missing merged factor, or non-positive merged monetary amount for an
economic factor — the stored activity list is left completely
unchanged: validation and the factor lookup precede the write. -/
theorem claim_C9_failed_update_leaves_store_unchanged :
    ∀ (db : DB) (user_id activity_id : String) (update_data : ActivityUpdate)
      (e : Err),
      (update_activity db user_id activity_id update_data).2 = Except.error e →
      (update_activity db user_id activity_id update_data).1 = db := by
  intro db user_id activity_id update_data e herr
  exact update_activity_error_fst db user_id activity_id update_data e herr

unseal Rat.mul Rat.inv Rat.add Rat.sub in
/-- Witness for C9: a failing update (economic factor, merged monetary
amount 0) leaves the store exactly as it was. -/
theorem claim_C9_failed_update_leaves_store_unchanged_witness :
    (update_activity dbA "u1" "a2"
        { factor_id := none, quantity := none, monetary_amount := some 0,
          date := none }).2
      = Except.error (Err.valueError
          "Monetary amount must be positive for economic activities") ∧
    (update_activity dbA "u1" "a2"
        { factor_id := none, quantity := none, monetary_amount := some 0,
          date := none }).1 = dbA :=
  ⟨by decide,
   claim_C9_failed_update_leaves_store_unchanged dbA "u1" "a2"
     { factor_id := none, quantity := none, monetary_amount := some 0,
       date := none }
     (Err.valueError "Monetary amount must be positive for economic activities")
     (by decide)⟩

/-- C10: field presence in the update merge is decided by different
tests per field.  A supplied empty-string `factor_id` is treated as
absent (Python truthiness); `quantity` and `monetary_amount` are
retained only when `None`, so a supplied `0` monetary amount overrides
the stored value and then fails validation when the merged factor is
economic; a supplied `date` always overrides (Python `datetime` values
are all truthy, so the source's truthiness test on the date degenerates
to a presence test). -/
theorem claim_C10_presence_tests :
    (∀ (update_data : ActivityUpdate) (original_activity : Activity),
      (update_data.factor_id = some "" →
        mergeFactorId update_data original_activity
          = original_activity.factor_id) ∧
      (∀ fid, update_data.factor_id = some fid → fid ≠ "" →
        mergeFactorId update_data original_activity = fid) ∧
      (∀ q, update_data.quantity = some q →
        mergeQuantity update_data original_activity = q) ∧
      (update_data.quantity = none →
        mergeQuantity update_data original_activity
          = original_activity.quantity) ∧
      (∀ m, update_data.monetary_amount = some m →
        mergeMonetary update_data original_activity = m) ∧
      (update_data.monetary_amount = none →
        mergeMonetary update_data original_activity
          = original_activity.monetary_amount) ∧
      (∀ d, update_data.date = some d →
        mergeDate update_data original_activity = d) ∧
      (update_data.date = none →
        mergeDate update_data original_activity = original_activity.date)) ∧
    (∀ (db : DB) (user_id activity_id : String) (update_data : ActivityUpdate)
       (original_activity : Activity) (factor : EmissionFactor),
      db.activities.find? (fun a => a.id == activity_id && a.user_id == user_id)
        = some original_activity →
      update_data.monetary_amount = some 0 →
      findFactor db (mergeFactorId update_data original_activity) = some factor →
      unitHasUSD factor.unit = true →
      (update_activity db user_id activity_id update_data).2
        = Except.error (Err.valueError
            "Monetary amount must be positive for economic activities")) := by
  constructor
  · intro update_data original_activity
    refine ⟨?_, ?_, ?_, ?_, ?_, ?_, ?_, ?_⟩
    · intro h; unfold mergeFactorId; rw [h]; simp
    · intro fid h hne; unfold mergeFactorId; rw [h]; exact if_neg hne
    · intro q h; unfold mergeQuantity; rw [h]
    · intro h; unfold mergeQuantity; rw [h]
    · intro m h; unfold mergeMonetary; rw [h]
    · intro h; unfold mergeMonetary; rw [h]
    · intro d h; unfold mergeDate; rw [h]
    · intro h; unfold mergeDate; rw [h]
  · intro db user_id activity_id update_data original_activity factor
      hfind hm0 hff husd
    have hm : mergeMonetary update_data original_activity = 0 := by
      unfold mergeMonetary; rw [hm0]
    unfold update_activity
    rw [hfind]
    dsimp only
    rw [hff]
    dsimp only
    rw [if_pos husd, if_pos (le_of_eq hm)]

unseal Rat.mul Rat.inv Rat.add Rat.sub in
/-- Witness for C10: the empty-string `factor_id` payload keeps the
original factor, and a supplied zero monetary amount on the economic
activity overrides and then fails validation. -/
theorem claim_C10_presence_tests_witness :
    updEmptyFid.factor_id = some "" ∧
    mergeFactorId updEmptyFid aBeef = aBeef.factor_id ∧
    dbA.activities.find? (fun a => a.id == "a2" && a.user_id == "u1") = some aElec ∧
    (update_activity dbA "u1" "a2"
        { factor_id := none, quantity := none, monetary_amount := some 0,
          date := none }).2
      = Except.error (Err.valueError
          "Monetary amount must be positive for economic activities") :=
  ⟨by decide,
   (claim_C10_presence_tests.1 updEmptyFid aBeef).1 rfl,
   by decide,
   claim_C10_presence_tests.2 dbA "u1" "a2"
     { factor_id := none, quantity := none, monetary_amount := some 0,
       date := none }
     aElec fElec (by decide) rfl (by decide) (by decide)⟩

/-- C7: `get_biggest_impactors` returns `null` for the physical slot
when the user has no physical (non-"USD") activities and `null` for the
economic slot when the user has no economic ("USD") activities, rather
than erroring; when a kind has at least one activity (whose factor
resolves, as every stored activity's does), the returned record is a
group (by factor `item_name`) with the maximal summed `total_co2e`
among that kind's groups. -/
theorem claim_C7_biggest_impactors :
    ∀ (db : DB) (user_id : String),
      ((∀ a ∈ db.activities, physicalFilter user_id a = false) →
        (get_biggest_impactors db user_id).biggest_physical = none) ∧
      ((∀ a ∈ db.activities, economicFilter user_id a = false) →
        (get_biggest_impactors db user_id).biggest_economic = none) ∧
      ((∀ a ∈ db.activities, physicalFilter user_id a = true →
          (findFactor db a.factor_id).isSome) →
       (∃ a ∈ db.activities, physicalFilter user_id a = true) →
        ∃ r, (get_biggest_impactors db user_id).biggest_physical = some r ∧
          (r.item_name, r.total_co2e_kg) ∈ physicalImpactorGroups db user_id ∧
          ∀ g ∈ physicalImpactorGroups db user_id, g.2 ≤ r.total_co2e_kg) ∧
      ((∀ a ∈ db.activities, economicFilter user_id a = true →
          (findFactor db a.factor_id).isSome) →
       (∃ a ∈ db.activities, economicFilter user_id a = true) →
        ∃ r, (get_biggest_impactors db user_id).biggest_economic = some r ∧
          (r.sector, r.total_co2e_kg) ∈ economicImpactorGroups db user_id ∧
          ∀ g ∈ economicImpactorGroups db user_id, g.2 ≤ r.total_co2e_kg) := by
  intro db user_id
  refine ⟨?_, ?_, ?_, ?_⟩
  · intro h
    have hnil : db.activities.filter (physicalFilter user_id) = [] :=
      List.filter_eq_nil_iff.mpr (fun a ha => by rw [h a ha]; simp)
    have hpg : physicalImpactorGroups db user_id = [] := by
      unfold physicalImpactorGroups
      rw [hnil]
      rfl
    simp only [get_biggest_impactors, hpg]
    rfl
  · intro h
    have hnil : db.activities.filter (economicFilter user_id) = [] :=
      List.filter_eq_nil_iff.mpr (fun a ha => by rw [h a ha]; simp)
    have heg : economicImpactorGroups db user_id = [] := by
      unfold economicImpactorGroups
      rw [hnil]
      rfl
    simp only [get_biggest_impactors, heg]
    rfl
  · intro hres hex
    obtain ⟨a, ha, hfa⟩ := hex
    obtain ⟨f, hf⟩ := Option.isSome_iff_exists.mp (hres a ha hfa)
    have hrow : (a, f) ∈ joinFactor db (db.activities.filter (physicalFilter user_id)) := by
      unfold joinFactor
      apply List.mem_filterMap.mpr
      exact ⟨a, List.mem_filter.mpr ⟨ha, hfa⟩, by rw [hf]; rfl⟩
    have hgrp : (f.item_name,
        groupSum (fun r => r.2.item_name) (fun r => r.1.total_co2e)
          (joinFactor db (db.activities.filter (physicalFilter user_id)))
          f.item_name) ∈ physicalImpactorGroups db user_id := by
      unfold physicalImpactorGroups groupSumsBy
      apply List.mem_map_of_mem
      unfold keysOf
      exact List.mem_dedup.mpr (List.mem_map_of_mem _ hrow)
    cases hs : List.insertionSort (descByQ (fun g => g.2))
        (physicalImpactorGroups db user_id) with
    | nil =>
      have hperm := List.perm_insertionSort (descByQ (fun g => g.2))
        (physicalImpactorGroups db user_id)
      rw [hs] at hperm
      rw [hperm.symm.eq_nil] at hgrp
      exact absurd hgrp (List.not_mem_nil _)
    | cons hd tl =>
      have hh : (List.insertionSort (descByQ (fun g => g.2))
          (physicalImpactorGroups db user_id)).head? = some hd := by
        rw [hs]; rfl
      obtain ⟨hmem, hmax⟩ := head?_insertionSort_desc_max
        (fun g : String × ℚ => g.2) _ hh
      refine ⟨{ item_name := hd.1, total_co2e_kg := hd.2 }, ?_, ?_, ?_⟩
      · simp only [get_biggest_impactors]
        rw [hh]
        rfl
      · show (hd.1, hd.2) ∈ physicalImpactorGroups db user_id
        rw [Prod.mk.eta]
        exact hmem
      · intro g hg
        exact hmax g hg
  · intro hres hex
    obtain ⟨a, ha, hfa⟩ := hex
    obtain ⟨f, hf⟩ := Option.isSome_iff_exists.mp (hres a ha hfa)
    have hrow : (a, f) ∈ joinFactor db (db.activities.filter (economicFilter user_id)) := by
      unfold joinFactor
      apply List.mem_filterMap.mpr
      exact ⟨a, List.mem_filter.mpr ⟨ha, hfa⟩, by rw [hf]; rfl⟩
    have hgrp : (f.item_name,
        groupSum (fun r => r.2.item_name) (fun r => r.1.total_co2e)
          (joinFactor db (db.activities.filter (economicFilter user_id)))
          f.item_name) ∈ economicImpactorGroups db user_id := by
      unfold economicImpactorGroups groupSumsBy
      apply List.mem_map_of_mem
      unfold keysOf
      exact List.mem_dedup.mpr (List.mem_map_of_mem _ hrow)
    cases hs : List.insertionSort (descByQ (fun g => g.2))
        (economicImpactorGroups db user_id) with
    | nil =>
      have hperm := List.perm_insertionSort (descByQ (fun g => g.2))
        (economicImpactorGroups db user_id)
      rw [hs] at hperm
      rw [hperm.symm.eq_nil] at hgrp
      exact absurd hgrp (List.not_mem_nil _)
    | cons hd tl =>
      have hh : (List.insertionSort (descByQ (fun g => g.2))
          (economicImpactorGroups db user_id)).head? = some hd := by
        rw [hs]; rfl
      obtain ⟨hmem, hmax⟩ := head?_insertionSort_desc_max
        (fun g : String × ℚ => g.2) _ hh
      refine ⟨{ sector := hd.1, total_co2e_kg := hd.2 }, ?_, ?_, ?_⟩
      · simp only [get_biggest_impactors]
        rw [hh]
        rfl
      · show (hd.1, hd.2) ∈ economicImpactorGroups db user_id
        rw [Prod.mk.eta]
        exact hmem
      · intro g hg
        exact hmax g hg

unseal Rat.mul Rat.inv Rat.add Rat.sub in
/-- Witness for C7: user "u1" has a physical activity, so the physical
slot carries a maximal group; user "u9" has none, so both slots are
`null`. -/
theorem claim_C7_biggest_impactors_witness :
    (∃ a ∈ dbA.activities, physicalFilter "u1" a = true) ∧
    (∃ r, (get_biggest_impactors dbA "u1").biggest_physical = some r ∧
       (r.item_name, r.total_co2e_kg) ∈ physicalImpactorGroups dbA "u1" ∧
       ∀ g ∈ physicalImpactorGroups dbA "u1", g.2 ≤ r.total_co2e_kg) ∧
    (get_biggest_impactors dbA "u9").biggest_physical = none ∧
    (get_biggest_impactors dbA "u9").biggest_economic = none :=
  ⟨by decide,
   (claim_C7_biggest_impactors dbA "u1").2.2.1 (by decide) (by decide),
   (claim_C7_biggest_impactors dbA "u9").1 (by decide),
   (claim_C7_biggest_impactors dbA "u9").2.1 (by decide)⟩

/-- Summing the fiber sums over the deduplicated key list recovers the
direct sum. -/
lemma sum_keysOf_groupSum {α κ : Type} [DecidableEq κ] (key : α → κ)
    (val : α → ℚ) (l : List α) :
    ((keysOf key l).map (fun k => groupSum key val l k)).sum
      = (l.map val).sum := by
  apply sum_groupSum
  · exact List.nodup_dedup _
  · intro x hx
    exact List.mem_dedup.mpr (List.mem_map_of_mem key hx)

/-- One activity whose `total_co2e` is below the rounding resolution of
the summary outputs. -/
def dbTiny : DB :=
  { emission_factors := []
    activities := [
      { id := "a1", user_id := "u1", factor_id := "f1", quantity := 1,
        monetary_amount := 0, total_co2e := 1/1000, date := dJan,
        unit_used := "kg" }] }

unseal Rat.mul Rat.inv Rat.add Rat.sub in
/-- C8 counterexample: the monthly summary rounds each bucket to two
decimals, so re-summing its reported emissions (0) differs from the
direct grand total (0.001). -/
theorem claim_C8_counterexample_rounded_buckets :
    ((get_monthly_summary dbTiny "u1").map (fun r => r.emissions)).sum
      ≠ userTotalCO2e dbTiny "u1" := by decide

/-- C8 (amended): before the 2-decimal output rounding, the monthly,
weekly and daily bucket totals each sum to exactly the same grand total
as summing `total_co2e` over all of the user's activities directly; the
reported summaries are exactly those bucket totals rounded to 2
decimals. -/
theorem claim_C8_amended_conservation :
    ∀ (db : DB) (user_id : String),
      ((monthlyGroups db user_id).map (fun g => g.2)).sum
        = userTotalCO2e db user_id ∧
      ((weeklyGroups db user_id).map (fun g => g.2)).sum
        = userTotalCO2e db user_id ∧
      ((dailyGroups db user_id).map (fun g => g.2.2)).sum
        = userTotalCO2e db user_id ∧
      get_monthly_summary db user_id = (monthlyGroups db user_id).map
        (fun g => { label := toString g.1.1 ++ "-" ++ toString g.1.2,
                    emissions := round2 g.2 }) ∧
      get_weekly_summary db user_id = (weeklyGroups db user_id).map
        (fun g => { label := "Week " ++ toString g.1.2 ++ ", " ++ toString g.1.1,
                    emissions := round2 g.2 }) ∧
      get_daily_summary db user_id = (dailyGroups db user_id).map
        (fun g => { label := formatDateYMD g.2.1,
                    emissions := round2 g.2.2 }) := by
  intro db user_id
  refine ⟨?_, ?_, ?_, rfl, rfl, rfl⟩
  · unfold monthlyGroups
    rw [sum_map_insertionSort]
    exact sum_groupSumsBy _ _ _
  · unfold weeklyGroups
    rw [sum_map_insertionSort]
    exact sum_groupSumsBy _ _ _
  · unfold dailyGroups
    rw [sum_map_insertionSort]
    rw [List.map_map]
    exact sum_keysOf_groupSum _ _ _

end SustainabilityTracker
